import Mathlib

/-!
Verification of the multi_tool_agent research workflow
(`src/multi_tool_agent/base_researcher.py`, `src/multi_tool_agent/agent.py`)
against its natural-language specification.

The Python code is shallowly embedded: session state is a list of
key/value string pairs, the runner's asynchronous event stream is a list
of stream items (an event, or an exception raised while producing the
next event), and reading `answer_summary` after the run is an `Except`
oracle so that exceptions raised by session-state access are covered.
Logging side effects are not modelled.
-/

/-- Python string truthiness for an optional string: `None` and the
empty string are falsy, every other string is truthy. -/
def truthyOpt : Option String → Bool
  | none => false
  | some s => s ≠ ""

/-- Whitespace characters removed by Python `str.strip()` (ASCII range). -/
def pyIsSpace (c : Char) : Bool :=
  c == ' ' || c == '\t' || c == '\n' || c == '\r' || c == '\x0b' || c == '\x0c'

/-- Model of Python `str.strip()` on a character list: drop leading and
trailing whitespace. -/
def pyStripList (l : List Char) : List Char :=
  ((l.dropWhile pyIsSpace).reverse.dropWhile pyIsSpace).reverse

/-- Model of Python `str.strip()`. -/
def pyStrip (s : String) : String :=
  ⟨pyStripList s.data⟩

/-- Session state: a mapping from field names to string values, as used
by the agents (`person_name`, `research_data`, `answer_summary`,
`review_result`). -/
def SessionState : Type := List (String × String)

/-- Model of Python `dict.get`: the value of the first matching key, or
`none` when the key is absent. -/
def stateGet (st : SessionState) (k : String) : Option String :=
  match st.find? (fun p => p.1 == k) with
  | some p => some p.2
  | none => none

/-- One part of an event's content; `text` is optional, as in
`google.genai.types.Part`. -/
structure EventPart where
  text : Option String
deriving DecidableEq

/-- Event content: a list of parts. -/
structure EventContent where
  parts : List EventPart
deriving DecidableEq

/-- One event emitted by `runner.run_async`. -/
structure Event where
  is_final_response : Bool
  content : Option EventContent
deriving DecidableEq

/-- An item of the runner's event stream: either an event, or an
exception raised while producing the next event. -/
inductive StreamItem where
  | ev (e : Event)
  | err (msg : String)
deriving DecidableEq

/-- The condition under which the event loop of `research_person` breaks
at an event: the event is a final response and `event.content and
event.content.parts` is truthy (content present with a nonempty parts
list). -/
def Event.breakingFinal (e : Event) : Bool :=
  e.is_final_response &&
    (match e.content with
     | some c => !c.parts.isEmpty
     | none => false)

/-- The value assigned to `final_response` when the loop breaks:
`event.content.parts[0].text`. -/
def Event.firstPartText (e : Event) : Option String :=
  match e.content with
  | some c =>
    match c.parts with
    | p :: _ => p.text
    | [] => none
  | none => none

/-- Outcome of the `async for` loop in `research_person`: the loop
either finishes (by `break` or stream exhaustion) with the value of
`final_response` and the number of events observed, or an exception is
raised mid-stream after observing some events. -/
inductive LoopOut where
  | done (final_response : Option String) (consumed : Nat)
  | raised (msg : String) (consumed : Nat)
deriving DecidableEq

/-- The `async for event in self.runner.run_async(...)` loop of
`research_person`: events are consumed in order; a final-response event
whose content has a nonempty parts list assigns `final_response` and
breaks; any other event (final or not) is skipped and consumption
continues. -/
def runLoop : List StreamItem → LoopOut
  | [] => .done none 0
  | .err m :: _ => .raised m 0
  | .ev e :: rest =>
    if e.breakingFinal then
      .done e.firstPartText 1
    else
      match runLoop rest with
      | .done fr n => .done fr (n + 1)
      | .raised m n => .raised m (n + 1)

/-- Observable outcome of one `research_person` call: the returned
value, the number of events observed from the runner's stream, and the
value written to session state under `person_name` (if any). -/
structure RunTrace where
  result : Option String
  consumed : Nat
  person_name_written : Option String
deriving DecidableEq

/-- Model of `BaseResearchFlow.research_person`. The runner's behaviour
is an oracle: `stream` is the event sequence it produces (with possible
mid-stream exceptions) and `answerRead` is the result of reading
`answer_summary` from session state after the run (possibly an
exception). Guard: an empty or whitespace-only name returns `None`
before anything else happens. Inside the `try` block, `person_name` is
written (stripped), the event loop runs, and the result is resolved as
`answer_summary` if truthy, else `final_response` if truthy, else
`None`; any exception is caught and converted to a `None` result. -/
def research_person (person_name : String) (stream : List StreamItem)
    (answerRead : Except String (Option String)) : RunTrace :=
  if person_name = "" ∨ pyStrip person_name = "" then
    { result := none, consumed := 0, person_name_written := none }
  else
    match runLoop stream with
    | .raised _ n =>
      { result := none, consumed := n,
        person_name_written := some (pyStrip person_name) }
    | .done fr n =>
      match answerRead with
      | .error _ =>
        { result := none, consumed := n,
          person_name_written := some (pyStrip person_name) }
      | .ok ans =>
        if truthyOpt ans then
          { result := ans, consumed := n,
            person_name_written := some (pyStrip person_name) }
        else if truthyOpt fr then
          { result := fr, consumed := n,
            person_name_written := some (pyStrip person_name) }
        else
          { result := none, consumed := n,
            person_name_written := some (pyStrip person_name) }

/-- Model of Python `str.startswith`. -/
def pyStartsWith (s pat : String) : Bool :=
  pat.data.isPrefixOf s.data

/-- Model of the Python `in` operator on strings: `pat` occurs as a
contiguous substring of the list. -/
def pyContainsList (pat : List Char) : List Char → Bool
  | [] => pat.isPrefixOf []
  | c :: rest => pat.isPrefixOf (c :: rest) || pyContainsList pat rest

/-- Model of the Python `pat in s` substring test. -/
def pyContains (s pat : String) : Bool :=
  pyContainsList pat.data s.data

/-- Scanner for Python `str.replace(pat, rep)`: with `skip = 0` it
emits characters until `pat` matches at the current position, then
emits `rep` and skips the remaining `pat.length - 1` matched characters
via the `skip` counter. Recursion is structural on the list so that the
function evaluates inside the kernel. -/
def pyReplaceAux (pat rep : List Char) : Nat → List Char → List Char
  | _, [] => []
  | skip+1, _ :: rest => pyReplaceAux pat rep skip rest
  | 0, c :: rest =>
    if pat.isPrefixOf (c :: rest) && !pat.isEmpty then
      rep ++ pyReplaceAux pat rep (pat.length - 1) rest
    else
      c :: pyReplaceAux pat rep 0 rest

/-- Model of Python `str.replace(pat, rep)` on character lists:
non-overlapping occurrences of `pat` are replaced left to right. The
empty pattern is treated as a no-op (the program only replaces the
nonempty patterns `"APPROVED:"` and `"NEEDS_IMPROVEMENT:"`). -/
def pyReplaceList (pat rep l : List Char) : List Char :=
  pyReplaceAux pat rep 0 l

/-- Model of Python `str.replace(pat, rep)`. -/
def pyReplace (s pat rep : String) : String :=
  ⟨pyReplaceList pat.data rep.data s.data⟩

/-- Model of Python `s.split("|")[0]`: the text before the first `|`,
or the whole string when no `|` occurs. -/
def pySplitBarHead (s : String) : String :=
  ⟨s.data.takeWhile (fun c => c != '|')⟩

/-- The expression `self.session.state.get('review_result') if
self.session else None` shared by the two review accessors. -/
def reviewResultOf (session : Option SessionState) : Option String :=
  match session with
  | some st => stateGet st "review_result"
  | none => none

/-- Model of `BaseResearchFlow.get_review_feedback`: when
`review_result` is truthy, the `APPROVED` branch is selected by
substring containment and removes every occurrence of `"APPROVED:"`
then strips; otherwise the `NEEDS_IMPROVEMENT` branch splits at `|`,
removes the prefix occurrences from the first piece and strips; any
other truthy value, a falsy value, or a missing session yields `None`. -/
def get_review_feedback (session : Option SessionState) : Option String :=
  match reviewResultOf session with
  | some r =>
    if r = "" then none
    else if pyContains r "APPROVED:" then
      some (pyStrip (pyReplace r "APPROVED:" ""))
    else if pyContains r "NEEDS_IMPROVEMENT:" then
      some (pyStrip (pyReplace (pySplitBarHead r) "NEEDS_IMPROVEMENT:" ""))
    else none
  | none => none

/-- Model of `BaseResearchFlow.get_review_status`: classifies a truthy
`review_result` by string prefix; everything else yields `None`. -/
def get_review_status (session : Option SessionState) : Option String :=
  match reviewResultOf session with
  | some r =>
    if r = "" then none
    else if pyStartsWith r "APPROVED:" then some "APPROVED"
    else if pyStartsWith r "NEEDS_IMPROVEMENT:" then some "NEEDS_IMPROVEMENT"
    else none
  | none => none

/-- Session holding only a `review_result` field, used to exercise the
review accessors. -/
def mkReviewSession (r : String) : Option SessionState :=
  some [("review_result", r)]

/-- Agent structure built by `_setup_agents`: either a leaf LLM agent
(with its `name` and `output_key`) or a `SequentialAgent` with a list
of sub-agents. -/
inductive AgentTree where
  | leaf (nm output_key : String)
  | seq (nm : String) (sub_agents : List AgentTree)

mutual

/-- Execution order of the leaf stages of an agent tree: a
`SequentialAgent` runs its sub-agents strictly in list order. -/
def AgentTree.stages : AgentTree → List String
  | .leaf nm _ => [nm]
  | .seq _ subs => stagesList subs

/-- Stages of a list of sub-agents, in order. -/
def stagesList : List AgentTree → List String
  | [] => []
  | a :: rest => a.stages ++ stagesList rest

end

/-- The `ResearchAgent` built in `_setup_agents`. -/
def research_agent : AgentTree := .leaf "ResearchAgent" "research_data"

/-- The `AnswerAgent` built in `_setup_agents`. -/
def answer_agent : AgentTree := .leaf "AnswerAgent" "answer_summary"

/-- The `ReviewerAgent` built in `_setup_agents`. -/
def reviewer_agent : AgentTree := .leaf "ReviewerAgent" "review_result"

/-- The `RefinerAgent` built in `_setup_agents`; it is constructed but
never added to any `SequentialAgent`. -/
def refiner_agent : AgentTree := .leaf "RefinerAgent" "refinement_action"

/-- The inner `SequentialAgent` named `BaseResearchWorkflow`. -/
def base_workflow : AgentTree :=
  .seq "BaseResearchWorkflow" [research_agent, answer_agent]

/-- The outer `SequentialAgent` named `IterativeResearchWorkflow`, the
agent handed to the `Runner`. -/
def workflow_agent : AgentTree :=
  .seq "IterativeResearchWorkflow" [base_workflow, reviewer_agent]

/-- Configuration of the `TavilySearchResults` tool as constructed in
`_setup_tools`. -/
structure TavilySearchResults where
  max_results : Nat
  search_depth : String
  include_answer : Bool
  include_raw_content : Bool
  include_images : Bool
deriving DecidableEq

/-- The tool configuration literally passed in `_setup_tools`. -/
def tavily_search : TavilySearchResults :=
  { max_results := 10
    search_depth := "advanced"
    include_answer := false
    include_raw_content := true
    include_images := false }

/-- Model of `_setup_tools`: the external constructor may raise; a
failure is logged and re-raised unchanged (the bare `raise` in the
`except` block). -/
def setup_tools (mk : Except String TavilySearchResults) :
    Except String TavilySearchResults :=
  match mk with
  | .ok t => .ok t
  | .error msg => .error msg

/-- Model of `BaseResearchFlow.__init__` up to agent construction: tool
setup runs first and aborts construction on failure; otherwise the
composed workflow is built. -/
def init_flow (mk : Except String TavilySearchResults) :
    Except String AgentTree :=
  match setup_tools mk with
  | .ok _ => .ok workflow_agent
  | .error msg => .error msg

/-- Python `str.lower` on one character, for the ASCII range: an ASCII
uppercase letter maps to its lowercase counterpart, every other
character is unchanged. No character ever maps to an ASCII uppercase
letter. -/
def pyLowerChar (c : Char) : Char :=
  if 65 ≤ c.toNat ∧ c.toNat ≤ 90 then Char.ofNat (c.toNat + 32) else c

/-- Model of Python `str.lower` (ASCII case mapping). -/
def pyLower (s : String) : String :=
  ⟨s.data.map pyLowerChar⟩

/-- Result dictionary of `get_biographies` in
`src/multi_tool_agent/agent.py`: either the success report or the
error-status dictionary. -/
inductive BioResult where
  | success (report : String)
  | error (error_message : String)
deriving DecidableEq

/-- The error message produced by the `else` branch of
`get_biographies` (the f-string, with its literal leading space and
quoting). -/
def bioErrorMessage (nm : String) : String :=
  " The is no information available for \x27" ++ nm ++ "\x27"

/-- Model of `get_biographies`: compares the lower-cased input against
the mixed-case literal `"Pedro Sanchez"`. -/
def get_biographies (nm : String) : BioResult :=
  if pyLower nm = "Pedro Sanchez" then
    .success "Pedro Sanchez, was born in ... on ....  He as politician from PSOE"
  else
    .error (bioErrorMessage nm)

/-- Functions defined at module level in `src/multi_tool_agent/agent.py`. -/
def agent_module_functions : List String :=
  ["get_biographies", "get_current_time"]

/-- Names referenced in the `tools=[...]` list of `root_agent` in
`src/multi_tool_agent/agent.py`. -/
def root_agent_tools : List String :=
  ["get_biographies", "get_from_different_sources"]

/-- C2: for every empty or whitespace-only person name,
`research_person` returns `None` before the `try` block: no event of
the runner's stream is observed and nothing is written to session
state, whatever the runner or the post-run state read would have
done. -/
theorem research_person_blank_name (nm : String) (stream : List StreamItem)
    (ans : Except String (Option String)) (h : pyStrip nm = "") :
    research_person nm stream ans =
      { result := none, consumed := 0, person_name_written := none } := by
  unfold research_person
  rw [if_pos (Or.inr h)]

/-- C2 witness: the three-space name is rejected without consuming the
stream, even though the stream carries a final response and the state
read would have produced a summary. -/
theorem research_person_blank_name_witness :
    pyStrip "   " = "" ∧
    research_person "   " [.ev ⟨true, some ⟨[⟨some "x"⟩]⟩⟩] (.ok (some "y")) =
      { result := none, consumed := 0, person_name_written := none } :=
  ⟨by decide,
   research_person_blank_name "   " [.ev ⟨true, some ⟨[⟨some "x"⟩]⟩⟩]
     (.ok (some "y")) (by decide)⟩

/-- C5: the composed pipeline is the fixed linear stage sequence
research → answer → review; the reviewer runs exactly once, there is no
loop node at all in the composed tree, and the refiner agent — although
constructed, with its own single stage — is not a member of the
composed pipeline. -/
theorem workflow_pipeline_linear :
    workflow_agent.stages = ["ResearchAgent", "AnswerAgent", "ReviewerAgent"]
    ∧ workflow_agent.stages.count "ReviewerAgent" = 1
    ∧ "RefinerAgent" ∉ workflow_agent.stages
    ∧ refiner_agent.stages = ["RefinerAgent"] := by
  have h : workflow_agent.stages = ["ResearchAgent", "AnswerAgent", "ReviewerAgent"] := by
    simp [workflow_agent, base_workflow, research_agent, answer_agent,
      reviewer_agent, AgentTree.stages, stagesList]
  refine ⟨h, ?_, ?_, ?_⟩
  · rw [h]; decide
  · rw [h]; decide
  · simp [refiner_agent, AgentTree.stages]

/-- C7: `get_review_feedback` on the two specified review results:
the `NEEDS_IMPROVEMENT` form is truncated at the first `|` and loses
its verdict prefix, the `APPROVED` form loses its verdict prefix. -/
theorem get_review_feedback_examples :
    get_review_feedback
        (mkReviewSession "NEEDS_IMPROVEMENT: missing dates|RESEARCH_NEEDED: dates") =
      some "missing dates"
    ∧ get_review_feedback (mkReviewSession "APPROVED: solid summary") =
      some "solid summary" := by
  decide

/-- C9: the search tool is configured with exactly 10 maximum results,
"advanced" depth, raw content included, no generated answer and no
images; a tool-setup failure is re-raised and aborts construction of
the flow, while a successful setup yields the composed workflow. -/
theorem setup_tools_configuration :
    tavily_search.max_results = 10
    ∧ tavily_search.search_depth = "advanced"
    ∧ tavily_search.include_raw_content = true
    ∧ tavily_search.include_answer = false
    ∧ tavily_search.include_images = false
    ∧ (∀ msg : String, init_flow (.error msg) = .error msg)
    ∧ init_flow (.ok tavily_search) = .ok workflow_agent :=
  ⟨rfl, rfl, rfl, rfl, rfl, fun _ => rfl, rfl⟩

/-- Helper for C10: the ASCII lower-casing of a character is never the
uppercase letter `P`. -/
lemma pyLowerChar_ne_upper_P (c : Char) : pyLowerChar c ≠ 'P' := by
  unfold pyLowerChar
  by_cases h : 65 ≤ c.toNat ∧ c.toNat ≤ 90
  · rw [if_pos h]
    obtain ⟨h1, h2⟩ := h
    revert h1 h2
    generalize c.toNat = n
    intro h1 h2
    interval_cases n <;> decide
  · rw [if_neg h]
    intro heq
    subst heq
    exact h (by decide)

/-- C10: `name.lower() == "Pedro Sanchez"` is false for every input
(a lower-cased string never contains the uppercase `P`), so the
success branch of `get_biographies` is unreachable and every call
returns the error dictionary; moreover the `tools` list of
`root_agent` references `get_from_different_sources`, which is not a
function defined in the module. -/
theorem get_biographies_success_unreachable (nm : String) :
    pyLower nm ≠ "Pedro Sanchez"
    ∧ get_biographies nm = .error (bioErrorMessage nm)
    ∧ "get_from_different_sources" ∈ root_agent_tools
    ∧ "get_from_different_sources" ∉ agent_module_functions := by
  have hne : pyLower nm ≠ "Pedro Sanchez" := by
    intro heq
    have hdata : nm.data.map pyLowerChar = "Pedro Sanchez".data := by
      have h0 := congrArg String.data heq
      simpa [pyLower] using h0
    cases hnm : nm.data with
    | nil =>
      rw [hnm] at hdata
      exact absurd hdata (by decide)
    | cons c cs =>
      rw [hnm] at hdata
      have hP : "Pedro Sanchez".data = 'P' :: "edro Sanchez".data := by decide
      rw [List.map_cons, hP] at hdata
      injection hdata with hhead _
      exact pyLowerChar_ne_upper_P c hhead
  refine ⟨hne, ?_, by decide, by decide⟩
  unfold get_biographies
  rw [if_neg hne]

/-- C1 counterexample: with `answer_summary` present in session state
but bound to the empty string, the driver does not return it — the
code tests Python truthiness, not presence — and returns the observed
final-response text instead. -/
theorem research_person_presence_counterexample :
    (research_person "Keir Starmer"
        [.ev ⟨false, none⟩, .ev ⟨false, none⟩,
         .ev ⟨true, some ⟨[⟨some "final bio text"⟩]⟩⟩]
        (.ok (some ""))).result = some "final bio text"
    ∧ (some "final bio text" : Option String) ≠ some "" := by
  decide

/-- C1 (amended): for every well-formed (non-whitespace) name, when the
run completes without an exception the result is resolved in order:
a truthy (non-empty) `answer_summary` is returned; otherwise a truthy
observed final-response text is returned; otherwise the result is
`None` (and a warning is logged, which the model does not record). -/
theorem research_person_resolution_order
    (nm : String) (stream : List StreamItem) (ans fr : Option String) (n : Nat)
    (hname : pyStrip nm ≠ "")
    (hloop : runLoop stream = .done fr n) :
    (truthyOpt ans = true →
      (research_person nm stream (.ok ans)).result = ans)
    ∧ (truthyOpt ans = false → truthyOpt fr = true →
      (research_person nm stream (.ok ans)).result = fr)
    ∧ (truthyOpt ans = false → truthyOpt fr = false →
      (research_person nm stream (.ok ans)).result = none) := by
  have hguard : ¬(nm = "" ∨ pyStrip nm = "") := by
    rintro (rfl | h)
    · exact hname (by decide)
    · exact hname h
  unfold research_person
  rw [if_neg hguard, hloop]
  refine ⟨?_, ?_, ?_⟩
  · intro h1
    simp [h1]
  · intro h1 h2
    simp [h1, h2]
  · intro h1 h2
    simp [h1, h2]

/-- C1 witness: the Keir Starmer scenario — two non-final events, then
a final event carrying "final bio text" — returns the session's
(non-empty) `answer_summary`. -/
theorem research_person_resolution_order_witness :
    pyStrip "Keir Starmer" ≠ "" ∧
    runLoop [.ev ⟨false, none⟩, .ev ⟨false, none⟩,
             .ev ⟨true, some ⟨[⟨some "final bio text"⟩]⟩⟩] =
      .done (some "final bio text") 3 ∧
    (truthyOpt (some "the summary") = true →
      (research_person "Keir Starmer"
          [.ev ⟨false, none⟩, .ev ⟨false, none⟩,
           .ev ⟨true, some ⟨[⟨some "final bio text"⟩]⟩⟩]
          (.ok (some "the summary"))).result = some "the summary") :=
  ⟨by decide, by decide,
   (research_person_resolution_order "Keir Starmer"
      [.ev ⟨false, none⟩, .ev ⟨false, none⟩,
       .ev ⟨true, some ⟨[⟨some "final bio text"⟩]⟩⟩]
      (some "the summary") (some "final bio text") 3
      (by decide) (by decide)).1⟩

/-- C3 counterexample: a first event flagged as final but carrying no
content does not stop consumption — the `break` sits inside the inner
content check — so the following event is also observed. -/
theorem runLoop_final_without_content_counterexample :
    (Event.mk true none).is_final_response = true
    ∧ runLoop [.ev (Event.mk true none), .ev (Event.mk false none)] =
      .done none 2 := by
  decide

/-- C3 (amended): consumption stops at the first final-response event
whose content has a nonempty parts list; every event before it is
observed, that event is observed, and no event after it is observed,
whatever follows in the stream. -/
theorem runLoop_stops_at_first_content_final
    (pre : List Event) (e : Event) (post : List Event)
    (hpre : ∀ x ∈ pre, x.breakingFinal = false)
    (he : e.breakingFinal = true) :
    runLoop ((pre ++ e :: post).map .ev) =
      .done e.firstPartText (pre.length + 1) := by
  induction pre with
  | nil =>
    simp only [List.nil_append, List.map_cons]
    unfold runLoop
    simp [he]
  | cons x rest ih =>
    have hx : x.breakingFinal = false := hpre x (by simp)
    have hrest : ∀ y ∈ rest, y.breakingFinal = false := by
      intro y hy
      exact hpre y (by simp [hy])
    simp only [List.cons_append, List.map_cons]
    unfold runLoop
    have hihn := ih hrest
    rw [List.map_append, List.map_cons] at hihn
    simp [hx, hihn]

/-- C3 witness: one non-final event, then a content-bearing final
event, then a trailing event: exactly two events are observed. -/
theorem runLoop_stops_at_first_content_final_witness :
    (∀ x ∈ [Event.mk false none], x.breakingFinal = false) ∧
    (Event.mk true (some ⟨[⟨some "final bio text"⟩]⟩)).breakingFinal = true ∧
    runLoop (([Event.mk false none] ++
        (Event.mk true (some ⟨[⟨some "final bio text"⟩]⟩)) ::
        [Event.mk false none]).map .ev) =
      .done (Event.mk true (some ⟨[⟨some "final bio text"⟩]⟩)).firstPartText
        ([Event.mk false none].length + 1) :=
  ⟨by decide, by decide,
   runLoop_stops_at_first_content_final [Event.mk false none]
     (Event.mk true (some ⟨[⟨some "final bio text"⟩]⟩))
     [Event.mk false none] (by decide) (by decide)⟩

/-- C4: every exception during the run — raised mid-stream by the
runner while producing events, or by the post-run session-state read —
is absorbed: the result is `None`. The model of `research_person` is a
total function into `RunTrace`, so no exception ever reaches the
caller. -/
theorem research_person_absorbs_exceptions
    (nm : String) (stream : List StreamItem)
    (ans : Except String (Option String)) (msg : String)
    (h : (∃ n, runLoop stream = .raised msg n) ∨ ans = .error msg) :
    (research_person nm stream ans).result = none := by
  unfold research_person
  by_cases hg : nm = "" ∨ pyStrip nm = ""
  · rw [if_pos hg]
  · rw [if_neg hg]
    rcases h with ⟨n, hn⟩ | herr
    · rw [hn]
    · cases hl : runLoop stream with
      | raised m k => simp
      | done fr k =>
        rw [herr]

/-- C6: `get_review_status` is a total function whose value is always
one of `APPROVED`, `NEEDS_IMPROVEMENT` or `None`: an `APPROVED:` prefix
yields `APPROVED`, otherwise a `NEEDS_IMPROVEMENT:` prefix yields
`NEEDS_IMPROVEMENT`, and a missing result (no session or no field),
or any value with an unrecognized prefix — the empty string included —
yields `None`. -/
theorem get_review_status_total (session : Option SessionState) :
    (get_review_status session = none
      ∨ get_review_status session = some "APPROVED"
      ∨ get_review_status session = some "NEEDS_IMPROVEMENT")
    ∧ (reviewResultOf session = none → get_review_status session = none)
    ∧ (∀ r, reviewResultOf session = some r →
        pyStartsWith r "APPROVED:" = true →
        get_review_status session = some "APPROVED")
    ∧ (∀ r, reviewResultOf session = some r →
        pyStartsWith r "APPROVED:" = false →
        pyStartsWith r "NEEDS_IMPROVEMENT:" = true →
        get_review_status session = some "NEEDS_IMPROVEMENT")
    ∧ (∀ r, reviewResultOf session = some r →
        pyStartsWith r "APPROVED:" = false →
        pyStartsWith r "NEEDS_IMPROVEMENT:" = false →
        get_review_status session = none) := by
  cases hrev : reviewResultOf session with
  | none =>
    have hgs : get_review_status session = none := by
      unfold get_review_status
      rw [hrev]
    refine ⟨Or.inl hgs, fun _ => hgs, ?_, ?_, ?_⟩
    · intro r hr _
      simp at hr
    · intro r hr _ _
      simp at hr
    · intro r hr _ _
      simp at hr
  | some r =>
    have hgs : get_review_status session =
        (if r = "" then none
         else if pyStartsWith r "APPROVED:" then some "APPROVED"
         else if pyStartsWith r "NEEDS_IMPROVEMENT:" then some "NEEDS_IMPROVEMENT"
         else none) := by
      unfold get_review_status
      rw [hrev]
    refine ⟨?_, ?_, ?_, ?_, ?_⟩
    · rw [hgs]
      split
      · exact Or.inl rfl
      · split
        · exact Or.inr (Or.inl rfl)
        · split
          · exact Or.inr (Or.inr rfl)
          · exact Or.inl rfl
    · intro hnone
      simp at hnone
    · intro r' hr' hap
      injection hr' with hreq
      subst hreq
      have hne : r ≠ "" := by
        intro h0
        rw [h0] at hap
        exact absurd hap (by decide)
      rw [hgs, if_neg hne, if_pos hap]
    · intro r' hr' hap hni
      injection hr' with hreq
      subst hreq
      have hne : r ≠ "" := by
        intro h0
        rw [h0] at hni
        exact absurd hni (by decide)
      rw [hgs, if_neg hne, if_neg (by simp [hap]), if_pos hni]
    · intro r' hr' hap hni
      injection hr' with hreq
      subst hreq
      rw [hgs]
      by_cases hne : r = ""
      · rw [if_pos hne]
      · rw [if_neg hne, if_neg (by simp [hap]), if_neg (by simp [hni])]

/-- C6 witness: an `APPROVED:`-prefixed review result classifies as
`APPROVED`. -/
theorem get_review_status_total_witness :
    reviewResultOf (mkReviewSession "APPROVED: ok") = some "APPROVED: ok"
    ∧ get_review_status (mkReviewSession "APPROVED: ok") = some "APPROVED" :=
  ⟨by decide,
   (get_review_status_total (mkReviewSession "APPROVED: ok")).2.2.1
     "APPROVED: ok" (by decide) (by decide)⟩

/-- C4 witness: a stream that raises before any final event yields a
`None` result. -/
theorem research_person_absorbs_exceptions_witness :
    ((∃ n, runLoop [StreamItem.err "boom"] = .raised "boom" n) ∨
      (Except.ok (some "x") : Except String (Option String)) = .error "boom") ∧
    (research_person "Keir Starmer" [StreamItem.err "boom"]
        (.ok (some "x"))).result = none :=
  ⟨Or.inl ⟨0, by decide⟩,
   research_person_absorbs_exceptions "Keir Starmer" [StreamItem.err "boom"]
     (.ok (some "x")) "boom" (Or.inl ⟨0, by decide⟩)⟩

/-- Helper: dropping while a predicate holds distributes over an append
whose right part starts with a character falsifying the predicate. -/
lemma dropWhile_append_cons (p : Char → Bool) (a : List Char) (c : Char)
    (b : List Char) (hc : p c = false) :
    (a ++ c :: b).dropWhile p = a.dropWhile p ++ c :: b := by
  induction a with
  | nil =>
    simp [List.dropWhile_cons, hc]
  | cons x a' ih =>
    by_cases hx : p x
    · simp [List.dropWhile_cons, hx, ih]
    · simp [List.dropWhile_cons, hx]

/-- Helper: the replace scanner passes untouched over a leading segment
none of whose characters equals the pattern's first character. -/
lemma pyReplaceAux_append_of_head_ne (h0 : Char) (pt rep : List Char)
    (p t : List Char) (hp : ∀ c ∈ p, c ≠ h0) :
    pyReplaceAux (h0 :: pt) rep 0 (p ++ t) =
      p ++ pyReplaceAux (h0 :: pt) rep 0 t := by
  induction p with
  | nil => simp
  | cons c p' ih =>
    have hc : c ≠ h0 := hp c (by simp)
    have hp' : ∀ x ∈ p', x ≠ h0 := by
      intro x hx
      exact hp x (by simp [hx])
    have hpre : (h0 :: pt).isPrefixOf (c :: (p' ++ t)) = false := by
      simp only [List.isPrefixOf]
      rw [show (h0 == c) = false from beq_eq_false_iff_ne.mpr (Ne.symm hc)]
      rw [Bool.false_and]
    have hstep : pyReplaceAux (h0 :: pt) rep 0 ((c :: p') ++ t) =
        c :: pyReplaceAux (h0 :: pt) rep 0 (p' ++ t) := by
      simp [pyReplaceAux, hpre]
    rw [hstep, ih hp', List.cons_append]

/-- Helper: stripping a string that starts with the literal
`NEEDS_IMPROVEMENT:` keeps that prefix intact and only strips trailing
whitespace of the remainder. -/
lemma pyStripList_needs_prefix (u : List Char) :
    pyStripList ("NEEDS_IMPROVEMENT:".data ++ u) =
      "NEEDS_IMPROVEMENT:".data ++ (u.reverse.dropWhile pyIsSpace).reverse := by
  unfold pyStripList
  have hsplit : "NEEDS_IMPROVEMENT:".data ++ u =
      'N' :: ("EEDS_IMPROVEMENT:".data ++ u) := by
    rw [show "NEEDS_IMPROVEMENT:".data = 'N' :: "EEDS_IMPROVEMENT:".data from by decide]
    rfl
  have h1 : ("NEEDS_IMPROVEMENT:".data ++ u).dropWhile pyIsSpace =
      "NEEDS_IMPROVEMENT:".data ++ u := by
    rw [hsplit, List.dropWhile_cons, if_neg (by decide)]
  rw [h1, List.reverse_append]
  rw [show "NEEDS_IMPROVEMENT:".data.reverse =
      ':' :: "NEEDS_IMPROVEMENT".data.reverse from by decide]
  rw [dropWhile_append_cons pyIsSpace u.reverse ':' _ (by decide)]
  rw [List.reverse_append]
  rw [show (':' :: "NEEDS_IMPROVEMENT".data.reverse).reverse =
      "NEEDS_IMPROVEMENT:".data from by decide]

/-- C8: the two accessors disagree on branch selection: for every
`review_result` that starts with `NEEDS_IMPROVEMENT:` and contains
`APPROVED:` somewhere later, `get_review_status` classifies by prefix
and answers `NEEDS_IMPROVEMENT`, while `get_review_feedback` selects
the `APPROVED` branch by substring containment, returning the whole
text with every `APPROVED:` occurrence removed and whitespace stripped
— a text that still starts with `NEEDS_IMPROVEMENT:` and was not
truncated at `|`. -/
theorem get_review_feedback_branch_mismatch (r : String)
    (hneeds : pyStartsWith r "NEEDS_IMPROVEMENT:" = true)
    (hap : pyContains r "APPROVED:" = true) :
    get_review_status (mkReviewSession r) = some "NEEDS_IMPROVEMENT"
    ∧ get_review_feedback (mkReviewSession r) =
        some (pyStrip (pyReplace r "APPROVED:" ""))
    ∧ pyStartsWith (pyStrip (pyReplace r "APPROVED:" ""))
        "NEEDS_IMPROVEMENT:" = true := by
  obtain ⟨t, ht⟩ : ∃ t, r.data = "NEEDS_IMPROVEMENT:".data ++ t := by
    obtain ⟨t, ht⟩ := List.isPrefixOf_iff_prefix.mp hneeds
    exact ⟨t, ht.symm⟩
  have hrne : r ≠ "" := by
    intro h0
    rw [h0] at hneeds
    exact absurd hneeds (by decide)
  have hnotap : pyStartsWith r "APPROVED:" = false := by
    unfold pyStartsWith
    rw [ht]
    rw [show "NEEDS_IMPROVEMENT:".data ++ t =
        'N' :: ("EEDS_IMPROVEMENT:".data ++ t) from by
      rw [show "NEEDS_IMPROVEMENT:".data = 'N' :: "EEDS_IMPROVEMENT:".data from by decide]
      rfl]
    rw [show "APPROVED:".data = 'A' :: "PPROVED:".data from by decide]
    simp only [List.isPrefixOf]
    rw [show ('A' == 'N') = false from by decide]
    rw [Bool.false_and]
  have hrev : reviewResultOf (mkReviewSession r) = some r := by
    simp [reviewResultOf, mkReviewSession, stateGet]
  have hstatus : get_review_status (mkReviewSession r) = some "NEEDS_IMPROVEMENT" := by
    have hgs : get_review_status (mkReviewSession r) =
        (if r = "" then none
         else if pyStartsWith r "APPROVED:" then some "APPROVED"
         else if pyStartsWith r "NEEDS_IMPROVEMENT:" then some "NEEDS_IMPROVEMENT"
         else none) := by
      unfold get_review_status
      rw [hrev]
    rw [hgs, if_neg hrne, if_neg (by simp [hnotap]), if_pos hneeds]
  have hfb : get_review_feedback (mkReviewSession r) =
      some (pyStrip (pyReplace r "APPROVED:" "")) := by
    have hgf : get_review_feedback (mkReviewSession r) =
        (if r = "" then none
         else if pyContains r "APPROVED:" then
           some (pyStrip (pyReplace r "APPROVED:" ""))
         else if pyContains r "NEEDS_IMPROVEMENT:" then
           some (pyStrip (pyReplace (pySplitBarHead r) "NEEDS_IMPROVEMENT:" ""))
         else none) := by
      unfold get_review_feedback
      rw [hrev]
    rw [hgf, if_neg hrne, if_pos hap]
  refine ⟨hstatus, hfb, ?_⟩
  have hrepl : (pyReplace r "APPROVED:" "").data =
      "NEEDS_IMPROVEMENT:".data ++ pyReplaceAux "APPROVED:".data [] 0 t := by
    show pyReplaceAux "APPROVED:".data "".data 0 r.data = _
    rw [ht]
    rw [show "APPROVED:".data = 'A' :: "PPROVED:".data from by decide]
    exact pyReplaceAux_append_of_head_ne 'A' "PPROVED:".data []
      "NEEDS_IMPROVEMENT:".data t (by decide)
  unfold pyStartsWith
  rw [show (pyStrip (pyReplace r "APPROVED:" "")).data =
      pyStripList ((pyReplace r "APPROVED:" "").data) from rfl]
  rw [hrepl, pyStripList_needs_prefix]
  exact List.isPrefixOf_iff_prefix.mpr (List.prefix_append _ _)

/-- C8 witness: a review result carrying both markers is classified as
`NEEDS_IMPROVEMENT` but its feedback comes from the `APPROVED` branch,
retains the `NEEDS_IMPROVEMENT:` prefix and the text after `|`. -/
theorem get_review_feedback_branch_mismatch_witness :
    pyStartsWith "NEEDS_IMPROVEMENT: missing dates|APPROVED: tone"
      "NEEDS_IMPROVEMENT:" = true
    ∧ pyContains "NEEDS_IMPROVEMENT: missing dates|APPROVED: tone"
      "APPROVED:" = true
    ∧ (get_review_status
        (mkReviewSession "NEEDS_IMPROVEMENT: missing dates|APPROVED: tone") =
          some "NEEDS_IMPROVEMENT"
      ∧ get_review_feedback
          (mkReviewSession "NEEDS_IMPROVEMENT: missing dates|APPROVED: tone") =
          some (pyStrip (pyReplace "NEEDS_IMPROVEMENT: missing dates|APPROVED: tone"
            "APPROVED:" ""))
      ∧ pyStartsWith (pyStrip (pyReplace "NEEDS_IMPROVEMENT: missing dates|APPROVED: tone"
          "APPROVED:" "")) "NEEDS_IMPROVEMENT:" = true) :=
  ⟨by decide, by decide,
   get_review_feedback_branch_mismatch
     "NEEDS_IMPROVEMENT: missing dates|APPROVED: tone" (by decide) (by decide)⟩
